import Mathlib

/-!
Shallow embedding of `src/check.py` (nightly telescope-log event pipeline).

Timestamps are modelled as rational numbers of seconds (`ℚ`): Python
`datetime` values have microsecond resolution and subtraction followed by
`total_seconds()` yields the elapsed seconds, so the gap comparisons of the
script are exact rational comparisons at every input relevant here.
-/

namespace CheckLogs

/-- `CLUSTER_SECONDS = 5` from the user settings block of `check.py`. -/
def CLUSTER_SECONDS : ℚ := 5

/-- The loop body of `cluster_events`: `for t in times[1:]:
if (t - clustered[-1]).total_seconds() > CLUSTER_SECONDS: clustered.append(t)`.
`last` is `clustered[-1]`, the last accepted representative; absorbed
timestamps do not change it. -/
def clusterLoop (last : ℚ) : List ℚ → List ℚ
  | [] => []
  | t :: rest =>
    if CLUSTER_SECONDS < t - last then t :: clusterLoop t rest
    else clusterLoop last rest

/-- Seeding step of `cluster_events`: `if not times: return []` and
`clustered = [times[0]]` applied to the already-sorted list. -/
def clusterStart : List ℚ → List ℚ
  | [] => []
  | t :: rest => t :: clusterLoop t rest

/-- `cluster_events(times)` from `check.py` lines 50-59: sort ascending
(Python `sorted`; any stable ascending sort agrees on `ℚ` values), seed with
the first element, then greedily keep timestamps more than `CLUSTER_SECONDS`
after the last kept one. -/
def cluster_events (times : List ℚ) : List ℚ :=
  clusterStart (List.insertionSort (fun a b => a ≤ b) times)

/-- The gap relation between consecutive representatives: the later one is
strictly more than `CLUSTER_SECONDS` after the earlier one. -/
def GapRel (a b : ℚ) : Prop := CLUSTER_SECONDS < b - a

lemma clusterLoop_sublist (last : ℚ) (ts : List ℚ) :
    (clusterLoop last ts).Sublist ts := by
  induction ts generalizing last with
  | nil => simp [clusterLoop]
  | cons t rest ih =>
    rw [clusterLoop]
    split
    · exact (ih t).cons₂ t
    · exact (ih last).cons t

lemma clusterLoop_chain (ts : List ℚ) (h : List.Sorted (· ≤ ·) ts) (last : ℚ) :
    List.Chain GapRel last (clusterLoop last ts) := by
  induction ts generalizing last with
  | nil => simp [clusterLoop]
  | cons t rest ih =>
    rw [List.sorted_cons] at h
    rw [clusterLoop]
    split
    · exact List.Chain.cons (by assumption) (ih h.2 t)
    · exact ih h.2 last

lemma clusterLoop_of_chain (ts : List ℚ) (last : ℚ)
    (h : List.Chain GapRel last ts) : clusterLoop last ts = ts := by
  induction ts generalizing last with
  | nil => simp [clusterLoop]
  | cons t rest ih =>
    rw [List.chain_cons] at h
    rw [clusterLoop, if_pos (show CLUSTER_SECONDS < t - last from h.1), ih t h.2]

lemma clusterLoop_covers (ts : List ℚ) (h : List.Sorted (· ≤ ·) ts) (last : ℚ)
    (hle : ∀ t ∈ ts, last ≤ t) :
    ∀ t ∈ ts, (last ≤ t ∧ t - last ≤ CLUSTER_SECONDS) ∨
      ∃ r ∈ clusterLoop last ts, r ≤ t ∧ t - r ≤ CLUSTER_SECONDS := by
  induction ts generalizing last with
  | nil => simp
  | cons t rest ih =>
    rw [List.sorted_cons] at h
    intro u hu
    rw [List.mem_cons] at hu
    rw [clusterLoop]
    split
    · rcases hu with rfl | hu
      · exact Or.inr ⟨u, List.mem_cons_self _ _, le_refl u, by simp [CLUSTER_SECONDS]⟩
      · rcases ih h.2 t h.1 u hu with h' | ⟨r, hr, h1, h2⟩
        · exact Or.inr ⟨t, List.mem_cons_self _ _, h'.1, h'.2⟩
        · exact Or.inr ⟨r, List.mem_cons.2 (Or.inr hr), h1, h2⟩
    · rcases hu with rfl | hu
      · refine Or.inl ⟨hle u (List.mem_cons_self _ _), ?_⟩
        next hgap => exact not_lt.1 hgap
      · exact ih h.2 last (fun v hv => hle v (List.mem_cons.2 (Or.inr hv))) u hu

lemma sorted_input_eq (xs : List ℚ) (h : List.Sorted (· ≤ ·) xs) :
    List.insertionSort (fun a b => a ≤ b) xs = xs :=
  List.Sorted.insertionSort_eq h

lemma cluster_events_chain' (xs : List ℚ) :
    List.Chain' GapRel (cluster_events xs) := by
  unfold cluster_events
  have hs : List.Sorted (· ≤ ·) (List.insertionSort (fun a b => a ≤ b) xs) :=
    List.sorted_insertionSort _ xs
  cases hsort : List.insertionSort (fun a b => a ≤ b) xs with
  | nil => simp [clusterStart]
  | cons t rest =>
    rw [hsort] at hs
    rw [List.sorted_cons] at hs
    exact clusterLoop_chain rest hs.2 t

lemma cluster_events_sublist_sorted (xs : List ℚ) :
    (cluster_events xs).Sublist (List.insertionSort (fun a b => a ≤ b) xs) := by
  unfold cluster_events
  cases hsort : List.insertionSort (fun a b => a ≤ b) xs with
  | nil => simp [clusterStart]
  | cons t rest => exact (clusterLoop_sublist t rest).cons₂ t

lemma cluster_events_subset (xs : List ℚ) :
    ∀ y ∈ cluster_events xs, y ∈ xs := fun _ hy =>
  (List.perm_insertionSort (fun a b => a ≤ b) xs).mem_iff.1
    ((cluster_events_sublist_sorted xs).subset hy)

lemma gapRel_sorted {l : List ℚ} (h : List.Chain' GapRel l) :
    List.Sorted (· ≤ ·) l := by
  have hlt : List.Chain' (· < ·) l := by
    refine List.Chain'.imp ?_ h
    intro a b hab
    have : (0 : ℚ) < b - a := lt_trans (by norm_num [CLUSTER_SECONDS]) hab
    linarith
  have := List.chain'_iff_pairwise.1 hlt
  exact this.imp le_of_lt

/-- Fixed point: a list whose consecutive elements are all strictly more than
`CLUSTER_SECONDS` apart is returned unchanged by `cluster_events`. -/
lemma cluster_events_of_chain' (l : List ℚ) (h : List.Chain' GapRel l) :
    cluster_events l = l := by
  unfold cluster_events
  rw [sorted_input_eq l (gapRel_sorted h)]
  cases l with
  | nil => simp [clusterStart]
  | cons t rest =>
    rw [clusterStart, clusterLoop_of_chain rest t h]

lemma cluster_events_head_min (xs : List ℚ) (hne : xs ≠ []) :
    ∃ m, (cluster_events xs).head? = some m ∧ m ∈ xs ∧ ∀ x ∈ xs, m ≤ x := by
  have hperm := List.perm_insertionSort (fun a b => a ≤ b) xs
  have hs : List.Sorted (· ≤ ·) (List.insertionSort (fun a b => a ≤ b) xs) :=
    List.sorted_insertionSort _ xs
  unfold cluster_events
  cases hsort : List.insertionSort (fun a b => a ≤ b) xs with
  | nil =>
    rw [hsort] at hperm
    exact absurd hperm.symm.eq_nil hne
  | cons t rest =>
    rw [hsort] at hperm hs
    rw [List.sorted_cons] at hs
    refine ⟨t, by simp [clusterStart], hperm.mem_iff.1 (List.mem_cons_self _ _), ?_⟩
    intro x hx
    rcases List.mem_cons.1 (hperm.mem_iff.2 hx) with rfl | hx'
    · exact le_refl x
    · exact hs.1 x hx'

/-- The sequence of `n` timestamps starting at `t0` with a fixed gap of
`step` seconds between consecutive elements; `seqFrom t0 4 n` is the spec's
strictly increasing burst whose consecutive pairs are exactly 4 seconds
apart. -/
def seqFrom (t0 step : ℚ) : ℕ → List ℚ
  | 0 => []
  | n + 1 => t0 :: seqFrom (t0 + step) step n

lemma seqFrom_mem_le (s : ℚ) (hs : 0 ≤ s) :
    ∀ n t0, ∀ x ∈ seqFrom t0 s n, t0 ≤ x := by
  intro n
  induction n with
  | zero => intro t0 x hx; simp [seqFrom] at hx
  | succ m ih =>
    intro t0 x hx
    rcases List.mem_cons.1 hx with rfl | hx'
    · exact le_refl x
    · exact le_trans (by linarith) (ih (t0 + s) x hx')

lemma seqFrom_sorted (s : ℚ) (hs : 0 ≤ s) :
    ∀ n t0, List.Sorted (· ≤ ·) (seqFrom t0 s n) := by
  intro n
  induction n with
  | zero => intro t0; simp [seqFrom]
  | succ m ih =>
    intro t0
    rw [seqFrom, List.sorted_cons]
    exact ⟨fun b hb => le_trans (by linarith) (seqFrom_mem_le s hs m (t0 + s) b hb),
      ih (t0 + s)⟩

lemma clusterLoop_seqFrom (m : ℕ) : ∀ t0 : ℚ,
    clusterLoop t0 (seqFrom (t0 + 4) 4 m) = seqFrom (t0 + 8) 8 (m / 2) := by
  induction m using Nat.twoStepInduction with
  | zero => intro t0; simp [seqFrom, clusterLoop]
  | one =>
    intro t0
    simp only [seqFrom]
    rw [clusterLoop,
      if_neg (by rw [CLUSTER_SECONDS, show t0 + 4 - t0 = (4 : ℚ) by ring]; norm_num),
      clusterLoop]
  | more m ih _ =>
    intro t0
    simp only [seqFrom]
    rw [clusterLoop,
      if_neg (by rw [CLUSTER_SECONDS, show t0 + 4 - t0 = (4 : ℚ) by ring]; norm_num),
      clusterLoop,
      if_pos (by rw [CLUSTER_SECONDS, show t0 + 4 + 4 - t0 = (8 : ℚ) by ring]; norm_num)]
    have hidx : (m + 2) / 2 = m / 2 + 1 := by omega
    rw [hidx, seqFrom]
    have harg : t0 + 4 + 4 = t0 + 8 := by ring
    rw [harg]
    have := ih (t0 + 8)
    rw [show (t0 + 8) + 4 = t0 + 12 by ring] at this
    rw [show (t0 + 8) + 8 = t0 + 16 by ring] at this
    rw [show t0 + 8 + 4 = t0 + 12 by ring, this, show t0 + 8 + 8 = t0 + 16 by ring]

/-! ### Timestamp parsing (`datetime.fromisoformat` on naive timestamps)

The script parses the first whitespace-delimited token of a log line with
`datetime.fromisoformat`.  The model below accepts the naive format
`YYYY-MM-DD[<sep>HH[:MM[:SS[.f..f]]]]` (calendar-validated, one arbitrary
separator character between date and time, 1-6 fractional digits) and maps
it to a rational number of seconds on an absolute day count, so that
subtraction of two parsed values is the elapsed time in seconds. -/

/-- Numeric value of a decimal digit character, `none` otherwise. -/
def digitVal (c : Char) : Option ℕ :=
  if c.isDigit then some (c.toNat - 48) else none

/-- Read exactly two decimal digits. -/
def read2 : List Char → Option (ℕ × List Char)
  | a :: b :: rest =>
    match digitVal a, digitVal b with
    | some x, some y => some (10 * x + y, rest)
    | _, _ => none
  | _ => none

/-- Read exactly four decimal digits. -/
def read4 : List Char → Option (ℕ × List Char)
  | a :: b :: c :: d :: rest =>
    match digitVal a, digitVal b, digitVal c, digitVal d with
    | some w, some x, some y, some z => some (1000 * w + 100 * x + 10 * y + z, rest)
    | _, _, _, _ => none
  | _ => none

def isLeapYear (y : ℕ) : Bool :=
  (y % 4 == 0 && y % 100 != 0) || y % 400 == 0

def daysInMonth (y m : ℕ) : ℕ :=
  if m = 2 then (if isLeapYear y then 29 else 28)
  else if m = 4 ∨ m = 6 ∨ m = 9 ∨ m = 11 then 30 else 31

/-- Days in year `y` before the first of month `m`. -/
def cumDays (y m : ℕ) : ℕ :=
  (List.range (m - 1)).foldl (fun acc k => acc + daysInMonth y (k + 1)) 0

/-- Absolute day count of a calendar date (proleptic Gregorian). -/
def dayNumber (y m d : ℕ) : ℕ :=
  (y - 1) * 365 + (y - 1) / 4 - (y - 1) / 100 + (y - 1) / 400 + cumDays y m + (d - 1)

def digitsToNat (ds : List Char) : ℕ :=
  ds.foldl (fun a c => 10 * a + (c.toNat - 48)) 0

/-- Fractional-second part after the dot: 1 to 6 digits, nothing after. -/
def parseFrac (cs : List Char) : Option ℚ :=
  if cs.all Char.isDigit ∧ 1 ≤ cs.length ∧ cs.length ≤ 6 then
    some ((digitsToNat cs : ℚ) / ((10 : ℚ) ^ cs.length))
  else none

/-- Time-of-day part `HH[:MM[:SS[.f..f]]]`, as seconds. -/
def parseHMS (cs : List Char) : Option ℚ :=
  match read2 cs with
  | none => none
  | some (h, r1) =>
    if 24 ≤ h then none else
    match r1 with
    | [] => some ((3600 * h : ℕ) : ℚ)
    | ':' :: r2 =>
      match read2 r2 with
      | none => none
      | some (mi, r3) =>
        if 60 ≤ mi then none else
        match r3 with
        | [] => some ((3600 * h + 60 * mi : ℕ) : ℚ)
        | ':' :: r4 =>
          match read2 r4 with
          | none => none
          | some (s, r5) =>
            if 60 ≤ s then none else
            match r5 with
            | [] => some ((3600 * h + 60 * mi + s : ℕ) : ℚ)
            | '.' :: r6 =>
              match parseFrac r6 with
              | none => none
              | some f => some (((3600 * h + 60 * mi + s : ℕ) : ℚ) + f)
            | _ => none
        | _ => none
    | _ => none

/-- Model of `datetime.fromisoformat` on the naive timestamps the logs
carry, returning seconds on an absolute time line, or `none` exactly when
Python would raise `ValueError`. -/
def fromisoformat (str : String) : Option ℚ :=
  match read4 str.toList with
  | none => none
  | some (y, r1) =>
    if y = 0 then none else
    match r1 with
    | '-' :: r2 =>
      match read2 r2 with
      | none => none
      | some (m, r3) =>
        if m = 0 ∨ 12 < m then none else
        match r3 with
        | '-' :: r4 =>
          match read2 r4 with
          | none => none
          | some (d, r5) =>
            if d = 0 ∨ daysInMonth y m < d then none else
            match r5 with
            | [] => some ((86400 * dayNumber y m d : ℕ) : ℚ)
            | _ :: r6 =>
              match parseHMS r6 with
              | none => none
              | some t => some (((86400 * dayNumber y m d : ℕ) : ℚ) + t)
        | _ => none
    | _ => none

/-! ### Event parsers -/

/-- `line.split()[0]` as an `Option`: Python splits on whitespace runs and
drops empty tokens, so the first token is the first maximal run of
non-whitespace characters; indexing the empty token list of an all-blank
line raises, modelled as `none`. -/
def firstToken (line : String) : Option String :=
  match line.toList.dropWhile Char.isWhitespace with
  | [] => none
  | c :: cs => some (String.mk ((c :: cs).takeWhile (fun ch => !ch.isWhitespace)))

/-- Substring containment on character lists. -/
def containsSeq (needle : List Char) : List Char → Bool
  | [] => needle.isEmpty
  | c :: cs => List.isPrefixOf needle (c :: cs) || containsSeq needle cs

/-- `re.search(r"reset", line, re.IGNORECASE)` as a Boolean: the line
contains the substring "reset" case-insensitively. -/
def containsReset (line : String) : Bool :=
  containsSeq ("reset".toList) (line.toList.map Char.toLower)

/-- `"Derotation occurred" in line`. -/
def containsDerotation (line : String) : Bool :=
  containsSeq ("Derotation occurred".toList) line.toList

/-- `parse_xyslides` from `check.py` lines 80-95: every line containing
"reset" (case-insensitive) contributes its first token's timestamp;
lines without tokens or with an unparseable first token are skipped. -/
def parse_xyslides (lines : List String) : List ℚ :=
  lines.filterMap (fun line =>
    if containsReset line then
      match firstToken line with
      | none => none
      | some ts => fromisoformat ts
    else none)

/-- Word characters of the regex class `\w`. -/
def wordChar (c : Char) : Bool := c.isAlphanum || c = '_'

/-- Drop a literal character sequence from the front, or fail. -/
def dropLit : List Char → List Char → Option (List Char)
  | [], cs => some cs
  | _ :: _, [] => none
  | p :: ps, c :: cs => if p = c then dropLit ps cs else none

/-- Try to match `Instrument mode\s*=\s*(\w+)` at this exact position,
returning the capture group. -/
def matchModeAt (cs : List Char) : Option String :=
  match dropLit ("Instrument mode".toList) cs with
  | none => none
  | some r1 =>
    match r1.dropWhile Char.isWhitespace with
    | '=' :: r2 =>
      let w := (r2.dropWhile Char.isWhitespace).takeWhile wordChar
      if w.isEmpty then none else some (String.mk w)
    | _ => none

def findInstModeAux : List Char → Option String
  | [] => none
  | c :: rest =>
    match matchModeAt (c :: rest) with
    | some w => some w
    | none => findInstModeAux rest

/-- `re.search(r"Instrument mode\s*=\s*(\w+)", line)`: first position in
the line where the pattern matches, returning the captured word. -/
def findInstMode (line : String) : Option String :=
  findInstModeAux line.toList

/-- The `for j in range(i, min(i + 5, len(lines)))` lookahead with `break`:
scan `n` lines starting at index `j`, returning the first mode found. -/
def modeScanN (lines : List String) : ℕ → ℕ → Option String
  | _, 0 => none
  | j, n + 1 =>
    match findInstMode (lines.getD j "") with
    | some w => some w
    | none => modeScanN lines (j + 1) n

/-- Mode resolution for the marker at index `i`: first match among lines
`i` to `min (i+5) lines.length - 1`, else `"UNKNOWN"`. -/
def resolveMode (lines : List String) (i : ℕ) : String :=
  (modeScanN lines i (min (i + 5) lines.length - i)).getD "UNKNOWN"

/-- The enumerated scan of `parse_schedule_poller`: `i` is the index of the
head of `todo` within `lines`.  A "Derotation occurred" line whose first
token is not a valid timestamp raises; the error aborts the file. -/
def pspGo (lines : List String) : ℕ → List String → Except String (List (ℚ × String))
  | _, [] => Except.ok []
  | i, line :: todo =>
    if containsDerotation line then
      match firstToken line with
      | none => Except.error "IndexError: list index out of range"
      | some tok =>
        match fromisoformat tok with
        | none => Except.error ("Invalid isoformat string: " ++ tok)
        | some ts =>
          match pspGo lines (i + 1) todo with
          | Except.error e => Except.error e
          | Except.ok rest => Except.ok ((ts, resolveMode lines i) :: rest)
    else pspGo lines (i + 1) todo

/-- `parse_schedule_poller` from `check.py` lines 62-77 on the decompressed
lines of one schedule-poller log: the list of (timestamp, mode) pairs, or
the exception the Python code would raise. -/
def parse_schedule_poller (lines : List String) : Except String (List (ℚ × String)) :=
  pspGo lines 0 lines

lemma modeScanN_eq_none (lines : List String) :
    ∀ n j, (∀ k, j ≤ k → k < j + n → findInstMode (lines.getD k "") = none) →
      modeScanN lines j n = none := by
  intro n
  induction n with
  | zero => intro j _; rfl
  | succ m ih =>
    intro j h
    rw [modeScanN, h j (le_refl j) (by omega)]
    exact ih (j + 1) (fun k hk1 hk2 => h k (by omega) (by omega))

lemma modeScanN_eq_some (lines : List String) :
    ∀ n j jm w, j ≤ jm → jm < j + n →
      findInstMode (lines.getD jm "") = some w →
      (∀ k, j ≤ k → k < jm → findInstMode (lines.getD k "") = none) →
      modeScanN lines j n = some w := by
  intro n
  induction n with
  | zero => intro j jm w h1 h2 _ _; omega
  | succ m ih =>
    intro j jm w h1 h2 h3 h4
    by_cases hj : jm = j
    · subst hj
      rw [modeScanN, h3]
    · rw [modeScanN, h4 j (le_refl j) (by omega)]
      exact ih (j + 1) jm w (by omega) (by omega) h3 (fun k hk1 hk2 => h4 k (by omega) hk2)

/-- Claim C4: for a "Derotation occurred" marker at line index `i`, the
instrument mode is the first match of `Instrument mode = <word>` among the
5 lines `i .. i+4` (window clipped at end of file); if none of those lines
match — in particular when the only match is on the 6th line — the mode is
`"UNKNOWN"`.  The last two conjuncts run `parse_schedule_poller` on the
spec's concrete examples: a match on the 5th line is found, a match on the
6th line is not. -/
theorem derotation_mode_window (lines : List String) (i : ℕ) :
    ((∀ j, i ≤ j → j < min (i + 5) lines.length → findInstMode (lines.getD j "") = none) →
      resolveMode lines i = "UNKNOWN") ∧
    (∀ j w, i ≤ j → j < min (i + 5) lines.length →
      findInstMode (lines.getD j "") = some w →
      (∀ k, i ≤ k → k < j → findInstMode (lines.getD k "") = none) →
      resolveMode lines i = w) ∧
    Except.map (List.map Prod.snd) (parse_schedule_poller
      ["2025-09-01T02:00:00 Derotation occurred", "a", "b", "c",
        "Instrument mode = FOO"]) = Except.ok ["FOO"] ∧
    Except.map (List.map Prod.snd) (parse_schedule_poller
      ["2025-09-01T02:00:00 Derotation occurred", "a", "b", "c", "d",
        "Instrument mode = FOO"]) = Except.ok ["UNKNOWN"] := by
  refine ⟨?_, ?_, by rfl, by rfl⟩
  · intro h
    rw [resolveMode, modeScanN_eq_none lines _ i (fun k hk1 hk2 => h k hk1 (by omega))]
    rfl
  · intro j w h1 h2 h3 h4
    rw [resolveMode, modeScanN_eq_some lines _ i j w h1 (by omega) h3 h4]
    rfl

/-- Witness for C4: in the concrete 5-line file the mode found on the 5th
line (index 4) resolves the marker at index 0 to `"FOO"`. -/
theorem derotation_mode_window_witness :
    resolveMode ["2025-09-01T02:00:00 Derotation occurred", "a", "b", "c",
      "Instrument mode = FOO"] 0 = "FOO" :=
  (derotation_mode_window _ 0).2.1 4 "FOO" (by omega) (by simp) (by rfl)
    (by intro k hk1 hk2; interval_cases k <;> rfl)

/-- Claim C5: in `parse_xyslides`, a line containing "reset"
(case-insensitively) whose first whitespace-delimited token does not parse
as a timestamp is silently skipped, while such a line with a parseable
first token yields exactly one event at that timestamp; the last conjuncts
check the spec's two concrete examples. -/
theorem xyreset_tolerance (line : String) :
    (containsReset line = true →
      (firstToken line).bind fromisoformat = none → parse_xyslides [line] = []) ∧
    (containsReset line = true → ∀ tok ts, firstToken line = some tok →
      fromisoformat tok = some ts → parse_xyslides [line] = [ts]) ∧
    parse_xyslides ["not-a-timestamp RESET happened"] = [] ∧
    (∃ t, fromisoformat "2025-09-01T02:15:30" = some t ∧
      parse_xyslides ["2025-09-01T02:15:30 stage reset complete"] = [t]) := by
  refine ⟨?_, ?_, by rfl, ⟨_, rfl, rfl⟩⟩
  · intro hc hn
    simp only [parse_xyslides, List.filterMap_cons, List.filterMap_nil, hc, if_true]
    cases hft : firstToken line with
    | none => rfl
    | some tok =>
      rw [hft] at hn
      rw [show (some tok).bind fromisoformat = fromisoformat tok from rfl] at hn
      simp [hft, hn]
  · intro hc tok ts hft hts
    simp only [parse_xyslides, List.filterMap_cons, List.filterMap_nil, hc, if_true]
    simp [hft, hts]

/-- Witness for C5: the spec's skipped line discharges the first conjunct's
hypotheses concretely. -/
theorem xyreset_tolerance_witness :
    parse_xyslides ["not-a-timestamp RESET happened"] = [] :=
  (xyreset_tolerance "not-a-timestamp RESET happened").1 (by rfl) (by rfl)

/-! ### The nightly aggregation loop of `main`

Network retrieval, on-disk caching, CSV writing and plotting are external
collaborators: they are modelled by an environment supplying, per night,
the decompressed lines of each log (or `none` when `fetch_and_save`
reports failure) and the external science-frame count (or `none` when no
obs-log page exists).  Nights are day numbers; `daterange s e` is the
inclusive `while d <= e` generator. -/

/-- External collaborators of one run. -/
structure Env where
  sched : ℕ → Option (List String)
  xy : ℕ → Option (List String)
  sci : ℕ → Option ℕ

/-- The mutable state `main` accumulates across nights. -/
structure RunState where
  noLogDays : List Bool
  lowSciDays : List Bool
  nightDero : List (ℕ × List (String × ℕ))
  nightReset : List (ℕ × ℕ)

def initState : RunState := ⟨[], [], [], []⟩

/-- `daterange(start, end)`: all days from `s` to `e` inclusive, empty when
`e < s` (the `while d <= e` loop). -/
def daterange (s e : ℕ) : List ℕ :=
  List.range' s (e + 1 - s)

/-- The anomaly flags computed in `main` lines 149-155 from the external
science count: `(no_log, low_sci)`; an absent count yields `(True, False)`,
a present count `c` yields `(False, c < 5)`. -/
def classifySci (sci : Option ℕ) : Bool × Bool :=
  match sci with
  | none => (true, false)
  | some c => (false, decide (c < 5))

/-- The three-way anomaly tag, as rendered by the `if no_log ... elif
low_sci ...` overlay logic of the plots. -/
inductive Anomaly where
  | NONE
  | NO_LOG
  | LOW_YIELD
deriving DecidableEq

/-- Anomaly classification of one night from the external count alone. -/
def anomalyOf (sci : Option ℕ) : Anomaly :=
  let fl := classifySci sci
  if fl.1 then Anomaly.NO_LOG else if fl.2 then Anomaly.LOW_YIELD else Anomaly.NONE

def recordSci (st : RunState) (sci : Option ℕ) : RunState :=
  let fl := classifySci sci
  { st with noLogDays := st.noLogDays ++ [fl.1], lowSciDays := st.lowSciDays ++ [fl.2] }

/-- `times_by_mode[mode].append(ts)` — grouping preserving first-seen mode
order (Python `defaultdict` insertion order). -/
def addGroup (acc : List (String × List ℚ)) (mode : String) (t : ℚ) :
    List (String × List ℚ) :=
  match acc with
  | [] => [(mode, [t])]
  | (m, ts) :: rest =>
    if m = mode then (m, ts ++ [t]) :: rest else (m, ts) :: addGroup rest mode t

def groupByMode (evs : List (ℚ × String)) : List (String × List ℚ) :=
  evs.foldl (fun acc p => addGroup acc p.2 p.1) []

/-- `night_dero[day][mode] += n` on the nested defaultdict. -/
def bumpAssoc (mcounts : List (String × ℕ)) (mode : String) (n : ℕ) :
    List (String × ℕ) :=
  match mcounts with
  | [] => [(mode, n)]
  | (m, v) :: rest =>
    if m = mode then (m, v + n) :: rest else (m, v) :: bumpAssoc rest mode n

def bumpDero (m : List (ℕ × List (String × ℕ))) (d : ℕ) (mode : String) (n : ℕ) :
    List (ℕ × List (String × ℕ)) :=
  match m with
  | [] => [(d, bumpAssoc [] mode n)]
  | (k, v) :: rest =>
    if k = d then (k, bumpAssoc v mode n) :: rest else (k, v) :: bumpDero rest d mode n

/-- `night_reset[day] += n` on the defaultdict. -/
def bumpCount (m : List (ℕ × ℕ)) (d n : ℕ) : List (ℕ × ℕ) :=
  match m with
  | [] => [(d, n)]
  | (k, v) :: rest =>
    if k = d then (k, v + n) :: rest else (k, v) :: bumpCount rest d n

/-- The `if deros:` block of `main`: partition by mode, cluster each
partition, add the clustered counts for this night. -/
def applyDeros (st : RunState) (d : ℕ) (deros : List (ℚ × String)) : RunState :=
  if deros.isEmpty then st
  else
    { st with nightDero :=
        ((groupByMode deros).foldl
          (fun m p => bumpDero m d p.1 (cluster_events p.2).length) st.nightDero) }

/-- The xy block of `main`: cluster the resets and add their count. -/
def applyResets (st : RunState) (d : ℕ) (resets : List ℚ) : RunState :=
  { st with nightReset := bumpCount st.nightReset d (cluster_events resets).length }

def procXy (env : Env) (st : RunState) (d : ℕ) : RunState :=
  match env.xy d with
  | none => st
  | some lines => applyResets st d (parse_xyslides lines)

/-- One iteration of the `for d in daterange(start, end)` loop: obs-log
check first, then the schedule-poller file (whose parse exception, if any,
propagates — `main` has no handler around `parse_schedule_poller`), then
the xyslides file. -/
def processNight (env : Env) (st : RunState) (d : ℕ) : Except String RunState :=
  let st1 := recordSci st (env.sci d)
  match env.sched d with
  | none => Except.ok (procXy env st1 d)
  | some lines =>
    match parse_schedule_poller lines with
    | Except.error e => Except.error e
    | Except.ok deros => Except.ok (procXy env (applyDeros st1 d deros) d)

/-- The whole run of `main` over the inclusive date range: either the final
accumulated state or the uncaught exception that aborted the run. -/
def runMain (env : Env) (s e : ℕ) : Except String RunState :=
  (daterange s e).foldlM (processNight env) initState

/-- `night_reset.get(day, 0)` from the plotting stage. -/
def lookupNat (m : List (ℕ × ℕ)) (d : ℕ) : ℕ :=
  match m with
  | [] => 0
  | (k, v) :: rest => if k = d then v else lookupNat rest d

/-- `xy_counts = [night_reset.get(day, 0) for day in dates]` — the final
per-night series, one entry per requested night. -/
def xyCountsFinal (st : RunState) (s e : ℕ) : List ℕ :=
  (daterange s e).map (fun d => lookupNat st.nightReset d)

/-- A "Derotation occurred" line whose first token does not parse: the
input that makes `parse_schedule_poller` raise. -/
def badMarker (line : String) : Bool :=
  containsDerotation line && ((firstToken line).bind fromisoformat).isNone

lemma psp_error_of_badMarker (lines : List String) :
    ∀ (todo : List String) (i : ℕ), (∃ line ∈ todo, badMarker line = true) →
      ∃ msg, pspGo lines i todo = Except.error msg := by
  intro todo
  induction todo with
  | nil => intro i h; simp at h
  | cons line rest ih =>
    intro i h
    by_cases hder : containsDerotation line
    · cases hft : firstToken line with
      | none =>
        exact ⟨"IndexError: list index out of range", by simp [pspGo, hder, hft]⟩
      | some tok =>
        cases hts : fromisoformat tok with
        | none =>
          exact ⟨"Invalid isoformat string: " ++ tok, by simp [pspGo, hder, hft, hts]⟩
        | some ts =>
          have hrest : ∃ l ∈ rest, badMarker l = true := by
            rcases h with ⟨l, hl, hbad⟩
            rcases List.mem_cons.1 hl with rfl | hl'
            · exfalso
              rw [badMarker, hft] at hbad
              rw [show (some tok).bind fromisoformat = fromisoformat tok from rfl,
                hts] at hbad
              simp at hbad
            · exact ⟨l, hl', hbad⟩
          rcases ih (i + 1) hrest with ⟨msg, hmsg⟩
          exact ⟨msg, by simp [pspGo, hder, hft, hts, hmsg]⟩
    · have hrest : ∃ l ∈ rest, badMarker l = true := by
        rcases h with ⟨l, hl, hbad⟩
        rcases List.mem_cons.1 hl with rfl | hl'
        · exfalso
          rw [badMarker] at hbad
          simp [hder] at hbad
        · exact ⟨l, hl', hbad⟩
      rcases ih (i + 1) hrest with ⟨msg, hmsg⟩
      exact ⟨msg, by simp [pspGo, hder, hmsg]⟩

lemma foldl_ok_sched_parsed (env : Env) :
    ∀ (days : List ℕ) (st0 st : RunState),
      days.foldlM (processNight env) st0 = Except.ok st →
      ∀ d ∈ days, ∀ lines, env.sched d = some lines →
        ∃ evs, parse_schedule_poller lines = Except.ok evs := by
  intro days
  induction days with
  | nil => intro st0 st _ d hd; simp at hd
  | cons d0 rest ih =>
    intro st0 st hfold d hd lines hsched
    rw [List.foldlM_cons] at hfold
    cases hp : processNight env st0 d0 with
    | error err =>
      rw [hp] at hfold
      exact Except.noConfusion
        (show (Except.error err : Except String RunState) = Except.ok st from hfold)
    | ok st1 =>
      rw [hp] at hfold
      have hfold' : rest.foldlM (processNight env) st1 = Except.ok st := hfold
      rcases List.mem_cons.1 hd with rfl | hd'
      · rw [processNight, hsched] at hp
        have hp' : (match parse_schedule_poller lines with
            | Except.error e => Except.error e
            | Except.ok deros =>
              Except.ok (procXy env (applyDeros (recordSci st0 (env.sci d)) d deros) d)) =
            Except.ok st1 := hp
        split at hp'
        · exact Except.noConfusion hp'
        · next deros heq => exact ⟨deros, heq⟩
      · exact ih st1 st hfold' d hd' lines hsched

lemma lookupNat_eq_zero (m : List (ℕ × ℕ)) (d : ℕ) (h : ∀ p ∈ m, p.1 ≠ d) :
    lookupNat m d = 0 := by
  induction m with
  | nil => rfl
  | cons kv rest ih =>
    rw [lookupNat]
    rw [if_neg (h kv (List.mem_cons_self _ _))]
    exact ih (fun p hp => h p (List.mem_cons.2 (Or.inr hp)))

/-- Counterexample to claim C3 as stated: a schedule-poller file whose
"Derotation occurred" line has a malformed leading timestamp does not leave
the rest of the run to complete with partial results — `main` has no
handler, so the `ValueError` propagates and the whole run aborts. -/
def envBad : Env :=
  ⟨fun _ => some ["oops Derotation occurred"], fun _ => none, fun _ => none⟩

/-- Claim C3 (amended): a malformed leading timestamp on a "Derotation
occurred" line makes `parse_schedule_poller` fail for that file, and the
failure is not converted into a zero contribution plus warning: the
exception escapes the aggregation loop, so the whole run aborts instead of
completing with partial results. -/
theorem malformed_derotation_aborts_run (env : Env) (s e d : ℕ)
    (lines : List String) (line : String)
    (hd : d ∈ daterange s e) (hsched : env.sched d = some lines)
    (hline : line ∈ lines) (hbad : badMarker line = true) :
    ¬ ∃ st, runMain env s e = Except.ok st := by
  rintro ⟨st, hst⟩
  rcases foldl_ok_sched_parsed env (daterange s e) initState st hst d hd lines hsched
    with ⟨evs, hevs⟩
  rcases psp_error_of_badMarker lines lines 0 ⟨line, hline, hbad⟩ with ⟨msg, hmsg⟩
  rw [parse_schedule_poller, hmsg] at hevs
  exact Except.noConfusion hevs

/-- The concrete aborted run for C3: the exception text is the propagated
`ValueError`, not a completed state. -/
theorem malformed_derotation_cex :
    runMain envBad 0 0 = Except.error "Invalid isoformat string: oops" ∧
      envBad.sched 0 = some ["oops Derotation occurred"] := ⟨rfl, rfl⟩

/-- Witness for the amended C3 at the concrete environment. -/
theorem malformed_derotation_aborts_run_witness :
    ¬ ∃ st, runMain envBad 0 0 = Except.ok st :=
  malformed_derotation_aborts_run envBad 0 0 0 ["oops Derotation occurred"]
    "oops Derotation occurred" (by decide) rfl (by simp) (by rfl)

/-- Claim C8: anomaly classification depends only on the externally
supplied science-frame count — absent count gives `NO_LOG` (and is never
also flagged low), a present count below 5 gives `LOW_YIELD`, a present
count of 5 or more gives `NONE` (5 itself is not low). -/
theorem anomaly_classification :
    anomalyOf none = Anomaly.NO_LOG ∧
    (∀ c : ℕ, c < 5 → anomalyOf (some c) = Anomaly.LOW_YIELD) ∧
    (∀ c : ℕ, 5 ≤ c → anomalyOf (some c) = Anomaly.NONE) ∧
    (classifySci none).2 = false ∧
    anomalyOf (some 3) = Anomaly.LOW_YIELD ∧
    anomalyOf (some 5) = Anomaly.NONE := by
  refine ⟨rfl, ?_, ?_, rfl, rfl, rfl⟩
  · intro c hc
    simp [anomalyOf, classifySci, hc]
  · intro c hc
    simp [anomalyOf, classifySci, Nat.not_lt.2 hc]

/-- Witness for C8 at counts 3 and 7 and the absent count. -/
theorem anomaly_classification_witness :
    anomalyOf (some 3) = Anomaly.LOW_YIELD ∧ anomalyOf (some 7) = Anomaly.NONE :=
  ⟨anomaly_classification.2.1 3 (by decide), anomaly_classification.2.2.1 7 (by decide)⟩

/-- The all-absent environment: no obs-log pages, no retrievable files. -/
def envTriv : Env := ⟨fun _ => none, fun _ => none, fun _ => none⟩

/-- The state the trivial three-night run ends in. -/
def stTriv : RunState := ⟨[true, true, true], [false, false, false], [], []⟩

/-- Claim C9: for an inclusive range of `N = e - s + 1` nights, the final
aggregate series is built over exactly `N` night keys — one per calendar
day of the range, regardless of the environment — and a night with no
accumulated reset entry appears with count `0` (`night_reset.get(day, 0)`).
-/
theorem zero_fill_night_keys (env : Env) (s e : ℕ) (hse : s ≤ e) (st : RunState)
    (hrun : runMain env s e = Except.ok st) :
    (daterange s e).length = e - s + 1 ∧
    (daterange s e).Nodup ∧
    (∀ d, d ∈ daterange s e ↔ s ≤ d ∧ d ≤ e) ∧
    (xyCountsFinal st s e).length = e - s + 1 ∧
    (∀ d ∈ daterange s e, (∀ p ∈ st.nightReset, p.1 ≠ d) →
      lookupNat st.nightReset d = 0) := by
  have hlen : (daterange s e).length = e - s + 1 := by
    rw [daterange]
    simp
    omega
  refine ⟨hlen, ?_, ?_, ?_, ?_⟩
  · rw [daterange]
    exact List.nodup_range' _ _ _ (by omega)
  · intro d
    rw [daterange, List.mem_range'_1]
    omega
  · rw [xyCountsFinal, List.length_map]
    exact hlen
  · intro d _ h
    exact lookupNat_eq_zero st.nightReset d h

/-- Witness for C9: the trivial environment over nights `0..2`. -/
theorem zero_fill_night_keys_witness :
    (daterange 0 2).length = 2 - 0 + 1 ∧
    (daterange 0 2).Nodup ∧
    (∀ d, d ∈ daterange 0 2 ↔ 0 ≤ d ∧ d ≤ 2) ∧
    (xyCountsFinal stTriv 0 2).length = 2 - 0 + 1 ∧
    (∀ d ∈ daterange 0 2, (∀ p ∈ stTriv.nightReset, p.1 ≠ d) →
      lookupNat stTriv.nightReset d = 0) :=
  zero_fill_night_keys envTriv 0 2 (by decide) stTriv (by rfl)

/-- Claim C6: clustering is idempotent — feeding the representatives back
into `cluster_events` returns the same sequence. -/
theorem cluster_idempotent (xs : List ℚ) :
    cluster_events (cluster_events xs) = cluster_events xs :=
  cluster_events_of_chain' _ (cluster_events_chain' xs)

/-- Claim C1: two timestamps whose gap is exactly `5` seconds are merged
into a single representative, while a gap strictly greater than `5`
(for instance `5.000001` seconds) produces two representatives — the
comparison in `cluster_events` is strict-greater-than. -/
theorem cluster_threshold_boundary (a b : ℚ) :
    (b - a = 5 → cluster_events [a, b] = [a]) ∧
    (5 < b - a → cluster_events [a, b] = [a, b]) := by
  constructor
  · intro h
    have hab : a ≤ b := by linarith
    unfold cluster_events
    rw [sorted_input_eq _ (by simp [List.sorted_cons, hab])]
    rw [clusterStart, clusterLoop, if_neg (by rw [CLUSTER_SECONDS, h]; exact lt_irrefl 5),
      clusterLoop]
  · intro h
    have hab : a ≤ b := by linarith
    unfold cluster_events
    rw [sorted_input_eq _ (by simp [List.sorted_cons, hab])]
    rw [clusterStart, clusterLoop, if_pos (show CLUSTER_SECONDS < b - a from h), clusterLoop]

/-- Witness for C1: `0` and `5` merge; `0` and `5.000001` split. -/
theorem cluster_threshold_boundary_witness :
    cluster_events [0, 5] = [0] ∧
      cluster_events [(0 : ℚ), 5000001/1000000] = [0, 5000001/1000000] :=
  ⟨(cluster_threshold_boundary 0 5).1 (by norm_num),
   (cluster_threshold_boundary 0 (5000001/1000000)).2 (by norm_num)⟩

/-- Counterexample to claim C2 as stated: the strictly increasing sequence
`[0, 4, 8]`, whose consecutive gaps are exactly 4 seconds, is NOT collapsed
into one representative — `cluster_events` compares each timestamp to the
last accepted representative, so `8 - 0 > 5` starts a second cluster. -/
theorem burst_chain_not_collapsed_cex :
    cluster_events [(0 : ℚ), 4, 8] = [0, 8] ∧
      (cluster_events [(0 : ℚ), 4, 8]).length ≠ 1 := by
  have h : cluster_events [(0 : ℚ), 4, 8] = [0, 8] := by
    unfold cluster_events
    rw [sorted_input_eq _ (by norm_num [List.sorted_cons])]
    rw [clusterStart, clusterLoop, if_neg (by norm_num [CLUSTER_SECONDS]),
      clusterLoop, if_pos (by norm_num [CLUSTER_SECONDS]), clusterLoop]
  exact ⟨h, by rw [h]; simp⟩

/-- Claim C2 (amended): because each timestamp is compared to the last
accepted representative, the strictly increasing sequence of `n` timestamps
each 4 seconds apart (`seqFrom t0 4 n`) does not collapse into one
representative in general: every other timestamp starts a new cluster,
yielding the representatives `t0, t0+8, t0+16, ...` — `⌈n/2⌉` of them
(`seqFrom t0 8 ((n+1)/2)`).  It collapses into a single representative only
for `n ≤ 2`. -/
theorem burst_chain_every_other (t0 : ℚ) (n : ℕ) :
    cluster_events (seqFrom t0 4 n) = seqFrom t0 8 ((n + 1) / 2) := by
  unfold cluster_events
  rw [sorted_input_eq _ (seqFrom_sorted 4 (by norm_num) n t0)]
  cases n with
  | zero => simp [seqFrom, clusterStart]
  | succ m =>
    simp only [seqFrom]
    rw [clusterStart, clusterLoop_seqFrom m t0,
      show (m + 1 + 1) / 2 = m / 2 + 1 by omega, seqFrom]

/-- Claim C7: representatives are the earliest timestamps of their bursts —
every representative is an input element, every input timestamp lies within
`5` seconds at-or-after some representative (its burst's representative),
and the spec's example `[t0, t0+1, t0+3, t0+20]` clusters to
`[t0, t0+20]`. -/
theorem cluster_earliest_representative (xs : List ℚ) :
    (∀ r ∈ cluster_events xs, r ∈ xs) ∧
    (∀ t ∈ xs, ∃ r ∈ cluster_events xs, r ≤ t ∧ t - r ≤ 5) ∧
    (∀ t0 : ℚ, cluster_events [t0, t0 + 1, t0 + 3, t0 + 20] = [t0, t0 + 20]) := by
  refine ⟨cluster_events_subset xs, ?_, ?_⟩
  · intro t ht
    have hperm := List.perm_insertionSort (fun a b => a ≤ b) xs
    have hs : List.Sorted (· ≤ ·) (List.insertionSort (fun a b => a ≤ b) xs) :=
      List.sorted_insertionSort _ xs
    have ht' := hperm.mem_iff.2 ht
    unfold cluster_events
    cases hsort : List.insertionSort (fun a b => a ≤ b) xs with
    | nil => rw [hsort] at ht'; exact absurd ht' (List.not_mem_nil t)
    | cons u rest =>
      rw [hsort] at ht' hs
      rw [List.sorted_cons] at hs
      rw [clusterStart]
      rcases List.mem_cons.1 ht' with rfl | htr
      · exact ⟨t, List.mem_cons_self _ _, le_refl t, by norm_num⟩
      · rcases clusterLoop_covers rest hs.2 u hs.1 t htr with h' | ⟨r, hr, h1, h2⟩
        · exact ⟨u, List.mem_cons_self _ _, h'.1, h'.2⟩
        · exact ⟨r, List.mem_cons.2 (Or.inr hr), h1, h2⟩
  · intro t0
    unfold cluster_events
    rw [sorted_input_eq _ (by norm_num [List.sorted_cons])]
    rw [clusterStart, clusterLoop,
      if_neg (by rw [CLUSTER_SECONDS, show t0 + 1 - t0 = (1 : ℚ) by ring]; norm_num),
      clusterLoop,
      if_neg (by rw [CLUSTER_SECONDS, show t0 + 3 - t0 = (3 : ℚ) by ring]; norm_num),
      clusterLoop,
      if_pos (by rw [CLUSTER_SECONDS, show t0 + 20 - t0 = (20 : ℚ) by ring]; norm_num),
      clusterLoop]

/-- Witness for C7: in `[0, 1, 3, 20]` the timestamp `3` is covered by a
representative at most 5 seconds before it. -/
theorem cluster_earliest_representative_witness :
    ∃ r ∈ cluster_events [(0 : ℚ), 1, 3, 20], r ≤ 3 ∧ 3 - r ≤ 5 :=
  (cluster_earliest_representative [0, 1, 3, 20]).2.1 3 (by norm_num)

/-- Claim C10: invariants of `cluster_events` — the output is a sublist of
the ascending sort of the input (each representative an unmodified input
element), consecutive representatives are strictly more than 5 seconds
apart (hence strictly ascending), the first representative of a non-empty
input is the input's minimum, and the output is never longer than the
input. -/
theorem cluster_output_invariants (xs : List ℚ) :
    (cluster_events xs).Sublist (List.insertionSort (fun a b => a ≤ b) xs) ∧
    List.Chain' (fun a b => (5 : ℚ) < b - a) (cluster_events xs) ∧
    (cluster_events xs).Pairwise (· < ·) ∧
    (∀ y ∈ cluster_events xs, y ∈ xs) ∧
    (xs ≠ [] → ∃ m, (cluster_events xs).head? = some m ∧ m ∈ xs ∧ ∀ x ∈ xs, m ≤ x) ∧
    (cluster_events xs).length ≤ xs.length := by
  have hchain : List.Chain' GapRel (cluster_events xs) := cluster_events_chain' xs
  have hlt : List.Chain' (· < ·) (cluster_events xs) := by
    refine List.Chain'.imp ?_ hchain
    intro a b hab
    have hab' : (5 : ℚ) < b - a := hab
    linarith
  refine ⟨cluster_events_sublist_sorted xs, hchain, List.chain'_iff_pairwise.1 hlt,
    cluster_events_subset xs, cluster_events_head_min xs, ?_⟩
  calc (cluster_events xs).length
      ≤ (List.insertionSort (fun a b => a ≤ b) xs).length :=
        (cluster_events_sublist_sorted xs).length_le
    _ = xs.length := (List.perm_insertionSort (fun a b => a ≤ b) xs).length_eq

/-- Witness for C10: the minimum of `[3, 1, 10]` heads the output. -/
theorem cluster_output_invariants_witness :
    ∃ m, (cluster_events [(3 : ℚ), 1, 10]).head? = some m ∧
      m ∈ [(3 : ℚ), 1, 10] ∧ ∀ x ∈ [(3 : ℚ), 1, 10], m ≤ x :=
  (cluster_output_invariants [3, 1, 10]).2.2.2.2.1 (by simp)

end CheckLogs
